import Mathlib

/-!
Verification of the thunderdome object-graph-mapping layer.

This file shallowly embeds the parts of the library that the checked
properties concern: the schema builder and discriminator registries
(`models.py`, metaclasses), polymorphic row deserialization
(`Element.deserialize`), the batched fetch and singular get
(`Vertex.all` / `Vertex.get`), deletion (`Vertex.delete` /
`Edge.delete`), edge validation and save (`Edge.validate` /
`Edge.save`), the groovy source scanner (`groovy.py`), and the bound
gremlin-method call protocol (`BaseGremlinMethod.__call__`).

The external execution boundary (`execute_query`) is modelled by
passing the boundary response in as data and by returning the list of
submitted scripts as a trace.
-/

namespace Thunderdome

/-- Loosely typed wire values: strings, numbers and null, as carried in
rexster JSON rows and query parameter maps. -/
inductive Val where
  | vstr : String → Val
  | vnum : Nat → Val
  | vnull : Val
deriving DecidableEq, Repr

/-- A JSON row / Python dict, modelled as an association list. -/
abbrev Row := List (String × Val)

/-- Opaque identity of a registered model class. -/
abbrev ClassId := Nat

/-- Decidable equality for `Except` outcomes, so that concrete runs of
the embedded operations can be checked by `decide`. -/
instance {ε α : Type} [DecidableEq ε] [DecidableEq α] : DecidableEq (Except ε α)
  | .ok a, .ok b =>
    if h : a = b then .isTrue (by rw [h]) else .isFalse (by intro hc; injection hc; contradiction)
  | .ok _, .error _ => .isFalse (by intro hc; exact Except.noConfusion hc)
  | .error _, .ok _ => .isFalse (by intro hc; exact Except.noConfusion hc)
  | .error e1, .error e2 =>
    if h : e1 = e2 then .isTrue (by rw [h]) else .isFalse (by intro hc; injection hc; contradiction)

/-- Python `d[k]` / `d.get(k)` lookup on an association-list dict:
first binding for the key wins. -/
def dictGet {β : Type} (d : List (String × β)) (k : String) : Option β :=
  match d with
  | [] => none
  | p :: rest => if p.1 = k then some p.2 else dictGet rest k

/-- Python `d[k] = v` on an association-list dict: replaces the value
in place when the key is present, appends a fresh binding otherwise. -/
def dictSet {β : Type} (d : List (String × β)) (k : String) (v : β) : List (String × β) :=
  if (dictGet d k).isSome then
    d.map (fun p => if p.1 = k then (k, v) else p)
  else
    d ++ [(k, v)]

/-- `OrderedDict.setdefault`: adds the binding only when the key is absent. -/
def dictSetdefault {β : Type} (d : List (String × β)) (k : String) (v : β) : List (String × β) :=
  if (dictGet d k).isSome then d else d ++ [(k, v)]

/- ----------------------------------------------------------------
   Discriminator computation: `BaseElement._type_name`
   (models.py lines 34-49).
   ---------------------------------------------------------------- -/

/-- One pass of `re.sub(r'([a-z])([A-Z])', '\1_\2'.lower-group, s)`:
each non-overlapping lower-upper pair is rewritten with an underscore
between and scanning resumes after the pair. -/
def ccaseAux : List Char → List Char
  | a :: b :: rest =>
    if a.isLower && b.isUpper then a :: '_' :: b.toLower :: ccaseAux rest
    else a :: ccaseAux (b :: rest)
  | l => l

/-- Python `str.lower`. -/
def strToLower (s : String) : String := String.mk (s.toList.map Char.toLower)

/-- `BaseElement._type_name`: the manual name lowered when given,
otherwise the camel-case class name split on case boundaries and
lowered. -/
def typeName (manual : Option String) (clsName : String) : String :=
  match manual with
  | some m => strToLower m
  | none => strToLower (String.mk (ccaseAux clsName.toList))

/- ----------------------------------------------------------------
   The discriminator registries: module-level `vertex_types` and
   `edge_types` dicts (models.py lines 11-13) and the metaclass
   registration hooks (lines 182-190 and 309-317).
   ---------------------------------------------------------------- -/

/-- The process-wide registry state: the `vertex_types` and
`edge_types` module dicts. -/
structure RegState where
  vertex_types : List (String × ClassId)
  edge_types : List (String × ClassId)
deriving DecidableEq, Repr

/-- `ElementDefinitionException` raised by the metaclass registration
hooks on a discriminator collision. -/
inductive DefErr where
  | alreadyRegisteredVertex (t : String)
  | alreadyRegisteredEdge (t : String)
deriving DecidableEq, Repr

/-- `VertexMetaClass.__new__` registration step: computes the element
type, raises on a collision in `vertex_types`, otherwise adds the
single binding for the new class. -/
def registerVertex (st : RegState) (manual : Option String) (clsName : String)
    (k : ClassId) : Except DefErr RegState :=
  let element_type := typeName manual clsName
  if (dictGet st.vertex_types element_type).isSome then
    .error (.alreadyRegisteredVertex element_type)
  else
    .ok { st with vertex_types := st.vertex_types ++ [(element_type, k)] }

/-- `EdgeMetaClass.__new__` registration step, against `edge_types`. -/
def registerEdge (st : RegState) (manual : Option String) (clsName : String)
    (k : ClassId) : Except DefErr RegState :=
  let label := typeName manual clsName
  if (dictGet st.edge_types label).isSome then
    .error (.alreadyRegisteredEdge label)
  else
    .ok { st with edge_types := st.edge_types ++ [(label, k)] }

/- ----------------------------------------------------------------
   Schema builder: `ElementMetaClass.__new__` (models.py lines 73-156).
   `columns.py` is not part of the sources; only the attributes the
   metaclass reads from a column object are modelled.
   ---------------------------------------------------------------- -/

/-- A column object as written in a class body, before
`set_column_name` runs. Modelled from the spec: `columns.py` is absent
from the sources; a Field Descriptor carries an optional explicit wire
name (`db_field`), a declaration ordinal and a deletability flag. -/
structure ColumnDecl where
  db_field : Option String
  position : Nat
  can_delete : Bool
deriving DecidableEq, Repr

/-- A column after `_transform_column` has attached it: its wire name
(`db_field_name`) is resolved. -/
structure AttachedColumn where
  db_field_name : String
  position : Nat
  can_delete : Bool
deriving DecidableEq, Repr

/-- `set_column_name`. Modelled from the spec: `columns.py` is absent
from the sources; the resolved wire name is the explicit `db_field`
override when given, else the attribute name the column was declared
under (visible in the tests: `Text(db_field='words')` resolves to
`words`, a plain `Text()` under attribute `content` to `content`). -/
def attachColumn (attrName : String) (c : ColumnDecl) : AttachedColumn :=
  { db_field_name := c.db_field.getD attrName
    position := c.position
    can_delete := c.can_delete }

/-- Stable insertion of a declared column into a position-sorted list,
keeping earlier-listed columns first among equal positions (Python
`sorted` is stable). -/
def insertByPos (x : String × ColumnDecl) :
    List (String × ColumnDecl) → List (String × ColumnDecl)
  | [] => [x]
  | y :: ys => if y.2.position < x.2.position then y :: insertByPos x ys else x :: y :: ys

/-- `sorted(column_definitions, cmp on position)`. -/
def sortByPos (l : List (String × ColumnDecl)) : List (String × ColumnDecl) :=
  l.foldr insertByPos []

/-- The effective field set of a class declaration: inherited columns
first via `setdefault`, then the declared columns in position order
via ordered-dict assignment (`_transform_column`). -/
def effectiveColumns (inherited : List (String × AttachedColumn))
    (declared : List (String × ColumnDecl)) : List (String × AttachedColumn) :=
  let base := inherited.foldl (fun d p => dictSetdefault d p.1 p.2) []
  (sortByPos declared).foldl (fun d p => dictSet d p.1 (attachColumn p.1 p.2)) base

/-- The duplicate-wire-name scan of `ElementMetaClass.__new__`
(models.py lines 107-112): walks the wire names accumulating a seen
set and reports the first name met twice. -/
def findDupWire (seen : List String) : List String → Option String
  | [] => none
  | n :: rest => if n ∈ seen then some n else findDupWire (n :: seen) rest

/-- `ModelException` raised by the schema builder. -/
inductive ModelErr where
  | modelException (clsName wire : String)
deriving DecidableEq, Repr

/-- The record the metaclass produces for a usable class: its ordered
column dict and the wire-name to field-name reverse map. -/
structure ClassRec where
  clsName : String
  columns : List (String × AttachedColumn)
  db_map : List (String × String)
deriving DecidableEq, Repr

/-- `ElementMetaClass.__new__`: merge inherited and declared columns,
fail on a duplicate wire name in the effective field set, otherwise
build the class record with its `db_map`. -/
def elementMetaNew (clsName : String) (inherited : List (String × AttachedColumn))
    (declared : List (String × ColumnDecl)) : Except ModelErr ClassRec :=
  let cols := effectiveColumns inherited declared
  match findDupWire [] (cols.map (fun p => p.2.db_field_name)) with
  | some w => .error (.modelException clsName w)
  | none =>
    .ok { clsName := clsName
          columns := cols
          db_map := cols.foldl (fun m p => dictSet m p.2.db_field_name p.1) [] }

/- ----------------------------------------------------------------
   Polymorphic deserialization: `Element.deserialize`
   (models.py lines 166-179).
   ---------------------------------------------------------------- -/

/-- A deserialized element: the registered class it was dispatched to
plus the raw row handed to the constructor. -/
inductive ElemInst where
  | vertexElem (cls : ClassId) (data : Row)
  | edgeElem (cls : ClassId) (inV outV : Val) (data : Row)
deriving DecidableEq, Repr

/-- Errors raised by `Element.deserialize`: Python `KeyError` (missing
row key or unregistered discriminator, carrying the offending key) and
the explicit `TypeError` for an unrecognized `_type` value. -/
inductive DeserErr where
  | keyError (k : Val)
  | typeError (dtype : Option Val)
deriving DecidableEq, Repr

/-- Dict lookup keyed by a wire value: the registries are keyed by
strings, so a non-string key is never present (Python `KeyError`). -/
def lookupValKey {β : Type} (reg : List (String × β)) (v : Val) : Option β :=
  match v with
  | .vstr s => dictGet reg s
  | _ => none

/-- `Element.deserialize`: dispatch on the row's `_type`; a `vertex`
row is resolved through `vertex_types` by its `element_type` tag, an
`edge` row through `edge_types` by its `_label` (then its `_inV` and
`_outV` endpoints are read); anything else is a `TypeError`. -/
def deserialize (st : RegState) (data : Row) : Except DeserErr ElemInst :=
  let dtype := dictGet data "_type"
  if dtype = some (.vstr "vertex") then
    match dictGet data "element_type" with
    | none => .error (.keyError (.vstr "element_type"))
    | some vt =>
      match lookupValKey st.vertex_types vt with
      | none => .error (.keyError vt)
      | some cls => .ok (.vertexElem cls data)
  else if dtype = some (.vstr "edge") then
    match dictGet data "_label" with
    | none => .error (.keyError (.vstr "_label"))
    | some lb =>
      match lookupValKey st.edge_types lb with
      | none => .error (.keyError lb)
      | some cls =>
        match dictGet data "_inV" with
        | none => .error (.keyError (.vstr "_inV"))
        | some iv =>
          match dictGet data "_outV" with
          | none => .error (.keyError (.vstr "_outV"))
          | some ov => .ok (.edgeElem cls iv ov data)
  else .error (.typeError dtype)

/- ----------------------------------------------------------------
   Batched fetch and singular get: `Vertex.all` / `Vertex.get`
   (models.py lines 208-242). The execution boundary's response is a
   parameter: a list of rows, each either a row dict or JSON null.
   ---------------------------------------------------------------- -/

/-- Errors propagating out of `Vertex.all`: `ThunderdomeQueryError`
for the count mismatch, the `IndexError` that the malformed
`'...'.format()` call in the `KeyError` handler actually raises
(models.py line 227 formats a `\x7b\x7d` placeholder with no
arguments), and the `TypeError` propagated from `deserialize`. -/
inductive AllErr where
  | queryError (msg : String)
  | indexError
  | typeErr (dtype : Option Val)
deriving DecidableEq, Repr

/-- Python `filter(None, results)`: keep the truthy rows, dropping
JSON nulls and empty dicts. -/
def pyTruthyFilter (response : List (Option Row)) : List Row :=
  (response.filterMap id).filter (fun r => !r.isEmpty)

/-- The deserialization loop of `Vertex.all`: the first failing row
aborts; a `KeyError` is re-raised through the broken message
formatting (an `IndexError`), a `TypeError` propagates as itself. -/
def deserializeRows (st : RegState) : List Row → Except AllErr (List ElemInst)
  | [] => .ok []
  | r :: rest =>
    match deserialize st r with
    | .error (.keyError _) => .error .indexError
    | .error (.typeError d) => .error (.typeErr d)
    | .ok e =>
      match deserializeRows st rest with
      | .error err => .error err
      | .ok es => .ok (e :: es)

/-- The message of the count-mismatch `ThunderdomeQueryError`. -/
def countMismatchMsg : String := "the number of results dont match the number of vids requested"

/-- `Vertex.all` (list form): truthy-filter the boundary response,
raise `ThunderdomeQueryError` unless the count equals the number of
requested vids, then deserialize every row. -/
def vertexAll (st : RegState) (vids : List Val) (response : List (Option Row)) :
    Except AllErr (List ElemInst) :=
  let results := pyTruthyFilter response
  if results.length ≠ vids.length then .error (.queryError countMismatchMsg)
  else deserializeRows st results

/-- Errors observable from `Vertex.get`: `DoesNotExist` (conversion of
`ThunderdomeQueryError`), the `MultipleObjectsReturned` branch, and
the uncaught `IndexError` / `TypeError` passing through. -/
inductive GetErr where
  | doesNotExist
  | multipleObjectsReturned
  | indexError
  | typeErr (dtype : Option Val)
deriving DecidableEq, Repr

/-- `Vertex.get`: delegates to `Vertex.all` with the one-element vid
list; a `ThunderdomeQueryError` becomes `DoesNotExist`; other
exceptions pass through uncaught; on a returned list, more than one
element raises `MultipleObjectsReturned`, else the first element is
returned (`results[0]` on an empty list would be an `IndexError`). -/
def vertexGet (st : RegState) (vid : Val) (response : List (Option Row)) :
    Except GetErr ElemInst :=
  match vertexAll st [vid] response with
  | .error (.queryError _) => .error .doesNotExist
  | .error .indexError => .error .indexError
  | .error (.typeErr d) => .error (.typeErr d)
  | .ok results =>
    if results.length > 1 then .error .multipleObjectsReturned
    else
      match results with
      | [] => .error .indexError
      | r :: _ => .ok r

/- ----------------------------------------------------------------
   Deletion: `Vertex.delete` (models.py lines 280-287) and
   `Edge.delete` (lines 372-379). The returned trace lists the
   scripts submitted to the execution boundary.
   ---------------------------------------------------------------- -/

/-- One call to `execute_query`: script text plus bound parameters. -/
structure Submission where
  script : String
  params : List (String × Val)
deriving DecidableEq, Repr

/-- The `ThunderdomeQueryError` message of both delete guards
(the edge variant repeats the vertex wording in the source). -/
def deleteGuardMsg : String := "Cant delete vertices that havent been saved"

/-- `Vertex.delete`: guard on a missing identifier, else submit the
removal script addressed by `eid`. The result pairs the outcome with
the trace of boundary submissions. -/
def vertexDelete (eid : Option Val) : Except String Unit × List Submission :=
  match eid with
  | none => (.error deleteGuardMsg, [])
  | some e =>
    (.ok (), [{ script := "g.removeVertex(g.v(eid))\ng.stopTransaction(SUCCESS)"
                params := [("eid", e)] }])

/-- `Edge.delete`: same guard, removal script addressed by `eid`. -/
def edgeDelete (eid : Option Val) : Except String Unit × List Submission :=
  match eid with
  | none => (.error deleteGuardMsg, [])
  | some e =>
    (.ok (), [{ script := "g.removeEdge(g.e(eid))\ng.stopTransaction(SUCCESS)"
                params := [("eid", e)] }])

/- ----------------------------------------------------------------
   Edge validation and save: `Edge.validate` (models.py lines
   334-340) and `Edge.save` (lines 342-370).
   ---------------------------------------------------------------- -/

/-- A resolved endpoint reference: a vertex whose `eid` attribute the
save script reads (`self.inV.eid`); the identifier may itself still be
absent for an unsaved vertex. -/
structure VertexRef where
  eid : Option Val
deriving DecidableEq, Repr

/-- An edge instance at save time: its own identifier, its endpoint
references (`_inV` / `_outV`), the data determining its label, its
columns (attribute name and resolved wire name) with the `as_dict`
values, and the outcome of per-field validation. -/
structure EdgeInst where
  eid : Option Val
  inV : Option VertexRef
  outV : Option VertexRef
  labelOverride : Option String
  clsName : String
  columns : List (String × String)
  values : List (String × Val)
  columnsValid : Bool
deriving DecidableEq, Repr

/-- `Edge.get_label`. -/
def edgeLabel (e : EdgeInst) : String := typeName e.labelOverride e.clsName

/-- `ValidationError` raised by `Edge.validate` or by a field
validator. -/
inductive SaveErr where
  | validationError (msg : String)
deriving DecidableEq, Repr

/-- `Edge.validate`: a new edge (no identifier) requires both endpoint
references to be present; afterwards the per-field validators always
run (`super().validate()`; the validators live in the absent
`columns.py` and are modelled from the spec as a single pass/fail
outcome, so the field check appears in both branches of the
identifier test). -/
def edgeValidate (e : EdgeInst) : Except SaveErr Unit :=
  if e.eid = none then
    if e.inV = none then
      .error (.validationError "in vertex must be set before saving new edges")
    else if e.outV = none then
      .error (.validationError "out vertex must be set before saving new edges")
    else if e.columnsValid then .ok ()
    else .error (.validationError "field validation failed")
  else if e.columnsValid then .ok ()
  else .error (.validationError "field validation failed")

/-- Python `v or null`: the endpoint identifier read off a resolved
reference (an unsaved endpoint reads as null). -/
def refEid (r : Option VertexRef) : Val :=
  match r with
  | some v => v.eid.getD .vnull
  | none => .vnull

/-- The setProperty script line for one column. -/
def setPropLine (dbName valName : String) : String :=
  "e.setProperty(\"" ++ dbName ++ "\", " ++ valName ++ ")"

/-- The opening script lines of `Edge.save`: for a new edge the
script addresses both endpoint identifiers (`v1eid` / `v2eid`) and
adds an edge between them, for an existing edge it addresses the edge
by `eid`. -/
def edgeSaveHeadLines (e : EdgeInst) : List String :=
  match e.eid with
  | none => ["v1 = g.v(v1eid)", "v2 = g.v(v2eid)", "e = g.addEdge(v1, v2, label)"]
  | some _ => ["e = g.e(eid)"]

/-- The initial parameter map of `Edge.save`: the label, plus for a
new edge both endpoint identifiers read off the resolved endpoint
references. -/
def edgeSaveHeadParams (e : EdgeInst) : List (String × Val) :=
  match e.eid with
  | none =>
    dictSet (dictSet [("label", .vstr (edgeLabel e))] "v1eid" (refEid e.inV))
      "v2eid" (refEid e.outV)
  | some eidv => dictSet [("label", .vstr (edgeLabel e))] "eid" eidv

/-- All script lines `Edge.save` joins into the submitted script: the
head, one setProperty line per column, the commit and the re-read. -/
def edgeSaveScriptLines (e : EdgeInst) : List String :=
  (e.columns.foldl (fun qs c => qs ++ [setPropLine c.2 (c.1 ++ "_val")])
    (edgeSaveHeadLines e)) ++ ["g.stopTransaction(SUCCESS)", "g.e(e.id)"]

/-- The full parameter map of `Edge.save`: every column value bound
under its `_val` parameter name over the head parameters. -/
def edgeSaveParams (e : EdgeInst) : List (String × Val) :=
  e.columns.foldl
    (fun ps c => dictSet ps (c.1 ++ "_val") ((dictGet e.values c.1).getD .vnull))
    (edgeSaveHeadParams e)

/-- The creation/update script and parameter map `Edge.save` submits. -/
def edgeSaveSubmission (e : EdgeInst) : Submission :=
  { script := String.intercalate "\n" (edgeSaveScriptLines e)
    params := edgeSaveParams e }

/-- `Edge.save`: validate first (a failure aborts with nothing
submitted), then build and submit the script. -/
def edgeSave (e : EdgeInst) : Except SaveErr Unit × List Submission :=
  match edgeValidate e with
  | .error err => (.error err, [])
  | .ok _ => (.ok (), [edgeSaveSubmission e])

/- ----------------------------------------------------------------
   Embedded-script scanning: groovy.py. The file text is scanned
   line-wise for captured blocks, and each block is re-parsed with
   the minimal pyparsing grammar
   `Keyword('def') + VarName + "(" + delimitedList(VarName) + ")" + "\x7b"`.
   ---------------------------------------------------------------- -/

/-- Opening brace character. -/
def lbrace : Char := Char.ofNat 123

/-- Closing brace character. -/
def rbrace : Char := Char.ofNat 125

/-- pyparsing default skippable whitespace. -/
def groovyWs (c : Char) : Bool := c = ' ' || c = '\t' || c = '\n'

/-- Python regex `\w`. -/
def isWordChar (c : Char) : Bool := c.isAlphanum || c = '_'

/-- pyparsing keyword boundary characters (alphanumerics, underscore,
dollar). -/
def isKeywordChar (c : Char) : Bool := c.isAlphanum || c = '_' || c = '$'

/-- Skip leading whitespace before a token. -/
def skipWs (cs : List Char) : List Char := cs.dropWhile groovyWs

/-- `Keyword('def')`: the literal `def` not followed by a keyword
character. -/
def expectKeywordDef (cs : List Char) : Option (List Char) :=
  match skipWs cs with
  | 'd' :: 'e' :: 'f' :: rest =>
    match rest with
    | [] => some []
    | c :: _ => if isKeywordChar c then none else some rest
  | _ => none

/-- `VarName = Regex('[A-Za-z0-9]\w*')`: an alphanumeric head greedily
extended by word characters. -/
def parseVarName (cs : List Char) : Option (String × List Char) :=
  match skipWs cs with
  | [] => none
  | c :: rest =>
    if c.isAlphanum then
      some (String.mk (c :: rest.takeWhile isWordChar), rest.dropWhile isWordChar)
    else none

/-- A single literal token, with whitespace skipping. -/
def expectTok (t : Char) (cs : List Char) : Option (List Char) :=
  match skipWs cs with
  | c :: rest => if c = t then some rest else none
  | [] => none

/-- The tail of `delimitedList(VarName)`: repeatedly consume a comma
and a following variable name; a comma not followed by a name fails
the whole definition parse (the closing parenthesis is then missing at
the comma). The fuel only bounds the loop: every iteration consumes
the comma and at least one name character, so a fuel of one more than
the input length is never exhausted. -/
def parseArgsLoop : Nat → List Char → List String → Option (List String × List Char)
  | 0, _, _ => none
  | fuel + 1, cs, acc =>
    match skipWs cs with
    | c :: rest =>
      if c = ',' then
        match parseVarName rest with
        | none => none
        | some (n, rest2) => parseArgsLoop fuel rest2 (acc ++ [n])
      else some (acc, cs)
    | [] => some (acc, cs)

/-- The pyparsing `FuncDefn` grammar (groovy.py lines 13-17): `def`,
a function name, a parenthesized non-empty comma-separated parameter
list, and the opening brace; trailing text is not consumed. -/
def parseFuncDefn (data : List Char) : Option (String × List String) := do
  let cs ← expectKeywordDef data
  let (name, cs) ← parseVarName cs
  let cs ← expectTok '(' cs
  let (a, cs) ← parseVarName cs
  let (args, cs) ← parseArgsLoop (cs.length + 1) cs [a]
  let cs ← expectTok ')' cs
  let _ ← expectTok lbrace cs
  return (name, args)

/-- `re.sub(r'[^\x7b]+\x7b', '', data)`: every maximal non-empty run
of non-brace characters directly followed by an opening brace is
removed together with that brace; an opening brace with no preceding
run survives. The pending run is kept when the input ends without a
following brace. -/
def stripDefnHead (pending : List Char) : List Char → List Char
  | [] => pending.reverse
  | c :: rest =>
    if c = lbrace then
      if pending.isEmpty then lbrace :: stripDefnHead [] rest
      else stripDefnHead [] rest
    else stripDefnHead (c :: pending) rest

/-- `re.sub(r'\x7d$', '', s)`: remove one closing brace at the very
end of the string or just before one trailing newline. -/
def stripTrailingBrace (cs : List Char) : List Char :=
  match cs.reverse with
  | c :: rest =>
    if c = rbrace then rest.reverse
    else if c = '\n' then
      match rest with
      | c2 :: rest2 => if c2 = rbrace then rest2.reverse ++ ['\n'] else cs
      | [] => cs
    else cs
  | [] => cs

/-- A parsed groovy function signature: name, ordered parameter names,
body text and full definition text. -/
structure GroovyFunction where
  name : String
  args : List String
  body : String
  defn : String
deriving DecidableEq, Repr

/-- `GroovyFunctionParser.parse`: run the grammar over the captured
block; on success package name, arguments, the regex-stripped body and
the full text; any parse failure yields the empty-dict placeholder,
modelled as `none`. -/
def GroovyFunctionParser.parse (data : List Char) : Option GroovyFunction :=
  match parseFuncDefn data with
  | some (name, args) =>
    some { name := name
           args := args
           body := String.mk (stripTrailingBrace (stripDefnHead [] data))
           defn := String.mk data }
  | none => none

/-- Python `data.split("\n")`. -/
def pySplitNl (cur : List Char) : List Char → List (List Char)
  | [] => [cur.reverse]
  | c :: rest =>
    if c = '\n' then cur.reverse :: pySplitNl [] rest else pySplitNl (c :: cur) rest

/-- `re.match(r'^def.*\x7b', line)`: the line starts with `def` and an
opening brace occurs somewhere after it. -/
def matchFuncDefnLine (line : List Char) : Bool :=
  match line with
  | 'd' :: 'e' :: 'f' :: rest => rest.contains lbrace
  | _ => false

/-- `re.match(r'^\x7d$', line)`: the line is exactly one closing
brace. -/
def matchFuncEndLine (line : List Char) : Bool := line = [rbrace]

/-- The line scan of `groovy.parse` (groovy.py lines 55-71): a block
starts at a function-definition line, accumulates lines, and closes at
a bare closing-brace line; an unterminated block at end of file is
dropped. -/
def scanBlocks : List (List Char) → List Char → List (List Char) → List (List Char)
  | [], _, acc => acc.reverse
  | line :: rest, fn_lines, acc =>
    if fn_lines.length > 0 then
      if matchFuncEndLine line then
        scanBlocks rest [] ((fn_lines ++ line ++ ['\n']) :: acc)
      else
        scanBlocks rest (fn_lines ++ line ++ ['\n']) acc
    else if matchFuncDefnLine line then
      scanBlocks rest (line ++ ['\n']) acc
    else
      scanBlocks rest fn_lines acc

/-- The captured blocks of a groovy source text. -/
def capturedBlocks (data : String) : List (List Char) :=
  scanBlocks (pySplitNl [] data.toList) [] []

/-- `groovy.parse`: scan the file text into blocks and re-parse every
block, keeping one entry per captured block (groovy.py lines 73-76). -/
def groovyParse (data : String) : List (Option GroovyFunction) :=
  (capturedBlocks data).map GroovyFunctionParser.parse

/- ----------------------------------------------------------------
   Bound gremlin methods: `BaseGremlinMethod.__call__`
   (gremlin.py lines 67-92).
   ---------------------------------------------------------------- -/

/-- A configured gremlin method: static flag, attribute name, the
parsed parameter list, declared default arguments, and the parsed
function body forwarded to the query engine. -/
structure GremlinMethodRec where
  classmethod : Bool
  attr_name : String
  arg_list : List String
  default_args : List (String × Val)
  function_body : String
deriving DecidableEq, Repr

/-- The `TypeError` variants `__call__` raises, plus the `IndexError`
of `arglist.pop(0)` on an exhausted parameter list (unreachable under
the arity guard). -/
inductive CallErr where
  | arityError (attr : String) (takes given : Nat)
  | multipleValues (attr k : String)
  | unexpectedKeyword (attr k : String)
  | indexError
deriving DecidableEq, Repr

/-- The positional-assignment loop: each positional argument is bound
to the front of the remaining parameter list. -/
def assignPositional (arglist : List String) (params : List (String × Val)) :
    List Val → Except CallErr (List (String × Val) × List String)
  | [] => .ok (params, arglist)
  | v :: rest =>
    match arglist with
    | [] => .error .indexError
    | a :: arglist' => assignPositional arglist' (dictSet params a v) rest

/-- Remove the first occurrence of a name:
`arglist.pop(arglist.index(k))`. -/
def removeFirst : List String → String → List String
  | [], _ => []
  | x :: rest, k => if x = k then rest else x :: removeFirst rest k

/-- The keyword-argument loop: a name no longer in the remaining
parameter list raises `multipleValues` when it is already bound in the
parameter map, `unexpectedKeyword` otherwise; a remaining name is
consumed and bound. -/
def kwargLoop (attr : String) (params : List (String × Val)) (arglist : List String) :
    List (String × Val) → Except CallErr (List (String × Val))
  | [] => .ok params
  | (k, v) :: rest =>
    if k ∈ arglist then
      kwargLoop attr (dictSet params k v) (removeFirst arglist k) rest
    else if (dictGet params k).isSome then
      .error (.multipleValues attr k)
    else
      .error (.unexpectedKeyword attr k)

/-- The effective positional arguments of a call: the instance
identifier is prepended for non-static methods. -/
def effectiveArgs (m : GremlinMethodRec) (instEid : Val) (args : List Val) : List Val :=
  if m.classmethod then args else instEid :: args

/-- The parameter map the positional loop produces: the consumed
prefix of the parameter list zipped with the positional arguments,
written over the declared defaults. -/
def posParams (arglist : List String) (params : List (String × Val)) (vals : List Val) :
    List (String × Val) :=
  (arglist.zip vals).foldl (fun ps p => dictSet ps p.1 p.2) params

/-- `BaseGremlinMethod.__call__`: prepend the instance identifier for
non-static methods, start from the declared defaults, enforce the
combined-argument arity bound, bind positionals then keywords, and
forward the function body with the final parameter map to
`execute_query`. -/
def gremlinCall (m : GremlinMethodRec) (instEid : Val) (args : List Val)
    (kwargs : List (String × Val)) : Except CallErr (String × List (String × Val)) :=
  if (effectiveArgs m instEid args).length + kwargs.length > m.arg_list.length then
    .error (.arityError m.attr_name m.arg_list.length (effectiveArgs m instEid args).length)
  else
    match assignPositional m.arg_list m.default_args (effectiveArgs m instEid args) with
    | .error err => .error err
    | .ok (params, arglist) =>
      match kwargLoop m.attr_name params arglist kwargs with
      | .error err => .error err
      | .ok params => .ok (m.function_body, params)

/- ================================================================
   Theorems.
   ================================================================ -/

theorem dictGet_append_of_some {β : Type} {d₁ : List (String × β)} (d₂ : List (String × β))
    {k : String} {c : β} (h : dictGet d₁ k = some c) :
    dictGet (d₁ ++ d₂) k = some c := by
  induction d₁ with
  | nil => simp [dictGet] at h
  | cons p rest ih =>
    rw [dictGet] at h
    by_cases hk : p.1 = k
    · simpa [dictGet, hk] using h
    · rw [if_neg hk] at h
      simpa [dictGet, hk] using ih h

theorem dictGet_append_of_none {β : Type} {d₁ : List (String × β)} (d₂ : List (String × β))
    {k : String} (h : dictGet d₁ k = none) :
    dictGet (d₁ ++ d₂) k = dictGet d₂ k := by
  induction d₁ with
  | nil => simp [dictGet]
  | cons p rest ih =>
    rw [dictGet] at h
    by_cases hk : p.1 = k
    · simp [hk] at h
    · rw [if_neg hk] at h
      simpa [dictGet, hk] using ih h

theorem findDupWire_eq_none_iff (l : List String) : ∀ seen : List String,
    findDupWire seen l = none ↔ l.Nodup ∧ ∀ x ∈ l, x ∉ seen := by
  induction l with
  | nil => intro seen; simp [findDupWire]
  | cons n rest ih =>
    intro seen
    by_cases hn : n ∈ seen
    · simp only [findDupWire, if_pos hn]
      constructor
      · intro h; exact absurd h (by simp)
      · rintro ⟨-, hall⟩
        exact absurd (hall n (by simp)) (by simpa using hn)
    · simp only [findDupWire, if_neg hn]
      rw [ih (n :: seen)]
      constructor
      · rintro ⟨hnd, hall⟩
        refine ⟨List.nodup_cons.mpr ⟨fun hmem => ?_, hnd⟩, ?_⟩
        · exact (hall n hmem) (by simp)
        · intro x hx
          rcases List.mem_cons.mp hx with rfl | hx'
          · exact hn
          · intro hxs
            exact (hall x hx') (by simp [hxs])
      · rintro ⟨hnd, hall⟩
        rcases List.nodup_cons.mp hnd with ⟨hnr, hrest⟩
        refine ⟨hrest, fun x hx hxs => ?_⟩
        rcases List.mem_cons.mp hxs with rfl | hxs'
        · exact hnr hx
        · exact (hall x (by simp [hx])) hxs'

/-- Claim C1: a model class declaration whose effective field set
(declared plus inherited columns) contains two fields resolving to the
same wire name raises `ModelException`, so no class record is ever
produced; a declaration whose wire names are pairwise distinct raises
no such error. -/
theorem C1_duplicate_wire_name_declaration_error (clsName : String)
    (inherited : List (String × AttachedColumn)) (declared : List (String × ColumnDecl)) :
    (¬ ((effectiveColumns inherited declared).map (fun p => p.2.db_field_name)).Nodup →
      ∃ w, elementMetaNew clsName inherited declared = .error (.modelException clsName w)) ∧
    (((effectiveColumns inherited declared).map (fun p => p.2.db_field_name)).Nodup →
      ∃ rec, elementMetaNew clsName inherited declared = .ok rec) := by
  constructor
  · intro hdup
    rcases hf : findDupWire []
        ((effectiveColumns inherited declared).map fun p => p.2.db_field_name) with _ | w
    · exact absurd ((findDupWire_eq_none_iff _ _).mp hf).1 hdup
    · exact ⟨w, by simp only [elementMetaNew, hf]⟩
  · intro hnd
    have hf : findDupWire []
        ((effectiveColumns inherited declared).map fun p => p.2.db_field_name) = none :=
      (findDupWire_eq_none_iff _ _).mpr ⟨hnd, by simp⟩
    have hok : elementMetaNew clsName inherited declared =
        .ok { clsName := clsName
              columns := effectiveColumns inherited declared
              db_map := (effectiveColumns inherited declared).foldl
                (fun m p => dictSet m p.2.db_field_name p.1) [] } := by
      simp only [elementMetaNew, hf]
    exact ⟨_, hok⟩

theorem C1_duplicate_wire_name_declaration_error_witness :
    (∃ w, elementMetaNew "BadNames" []
      [("words", ⟨none, 0, false⟩), ("content", ⟨some "words", 1, false⟩)] =
        .error (.modelException "BadNames" w)) ∧
    (∃ rec, elementMetaNew "GoodNames" []
      [("words", ⟨none, 0, false⟩), ("content", ⟨some "text", 1, false⟩)] = .ok rec) :=
  ⟨(C1_duplicate_wire_name_declaration_error "BadNames" _ _).1 (by decide),
   (C1_duplicate_wire_name_declaration_error "GoodNames" _ _).2 (by decide)⟩

/-- Claim C2: the discriminator registries are append-only and
injective. Declaring a Vertex (resp. Edge) subclass whose computed
discriminator is already registered raises
`ElementDefinitionException` and leaves no new class usable; a fresh
discriminator appends exactly one binding for the new class, keeps
every existing binding intact, and maps the discriminator to the new
class. -/
theorem C2_registry_append_only_injective (st : RegState) (manual : Option String)
    (clsName : String) (k : ClassId) :
    ((dictGet st.vertex_types (typeName manual clsName)).isSome →
      registerVertex st manual clsName k =
        .error (.alreadyRegisteredVertex (typeName manual clsName))) ∧
    (dictGet st.vertex_types (typeName manual clsName) = none →
      registerVertex st manual clsName k =
        .ok { st with vertex_types := st.vertex_types ++ [(typeName manual clsName, k)] } ∧
      (∀ t' c, dictGet st.vertex_types t' = some c →
        dictGet (st.vertex_types ++ [(typeName manual clsName, k)]) t' = some c) ∧
      dictGet (st.vertex_types ++ [(typeName manual clsName, k)])
        (typeName manual clsName) = some k ∧
      (st.vertex_types ++ [(typeName manual clsName, k)]).length =
        st.vertex_types.length + 1) ∧
    ((dictGet st.edge_types (typeName manual clsName)).isSome →
      registerEdge st manual clsName k =
        .error (.alreadyRegisteredEdge (typeName manual clsName))) ∧
    (dictGet st.edge_types (typeName manual clsName) = none →
      registerEdge st manual clsName k =
        .ok { st with edge_types := st.edge_types ++ [(typeName manual clsName, k)] } ∧
      (∀ t' c, dictGet st.edge_types t' = some c →
        dictGet (st.edge_types ++ [(typeName manual clsName, k)]) t' = some c) ∧
      dictGet (st.edge_types ++ [(typeName manual clsName, k)])
        (typeName manual clsName) = some k ∧
      (st.edge_types ++ [(typeName manual clsName, k)]).length =
        st.edge_types.length + 1) := by
  refine ⟨fun h => ?_, fun h => ⟨?_, fun t' c hc => ?_, ?_, by simp⟩,
          fun h => ?_, fun h => ⟨?_, fun t' c hc => ?_, ?_, by simp⟩⟩
  · simp only [registerVertex, h, if_pos]
  · simp [registerVertex, h]
  · exact dictGet_append_of_some _ hc
  · rw [dictGet_append_of_none _ h]; simp [dictGet]
  · simp only [registerEdge, h, if_pos]
  · simp [registerEdge, h]
  · exact dictGet_append_of_some _ hc
  · rw [dictGet_append_of_none _ h]; simp [dictGet]

theorem C2_registry_append_only_injective_witness :
    typeName (some "Person") "Other" = "person" ∧
    typeName none "BlogPost" = "blog_post" ∧
    (registerVertex { vertex_types := [("person", 0)], edge_types := [] }
      (some "Person") "Other" 1 =
      .error (.alreadyRegisteredVertex (typeName (some "Person") "Other"))) ∧
    (registerVertex { vertex_types := [("person", 0)], edge_types := [] }
      none "BlogPost" 1 =
      .ok { vertex_types := [("person", 0)] ++ [(typeName none "BlogPost", 1)],
            edge_types := [] }) :=
  ⟨by decide, by decide,
   (C2_registry_append_only_injective
      { vertex_types := [("person", 0)], edge_types := [] } (some "Person") "Other" 1).1
      (by decide),
   ((C2_registry_append_only_injective
      { vertex_types := [("person", 0)], edge_types := [] } none "BlogPost" 1).2.1
      (by decide)).1⟩

/-- Claim C5: deleting a vertex or an edge whose identifier is absent
raises `ThunderdomeQueryError` and submits nothing to the execution
boundary: the outcome is the guard error and the submission trace is
empty. -/
theorem C5_delete_without_identifier_guard :
    vertexDelete none = (.error deleteGuardMsg, []) ∧
    edgeDelete none = (.error deleteGuardMsg, []) :=
  ⟨rfl, rfl⟩

/-- Claim C10: the vertex and edge discriminators live in disjoint
registries. The same discriminator string can be claimed by one
vertex class and one edge class with no definition error, and row
deserialization picks the registry by the row's `_type` before the
discriminator lookup, so both classes are reachable simultaneously. -/
theorem C10_vertex_edge_registries_disjoint (st : RegState) (t : String)
    (mv me : Option String) (cv ce : String) (kv ke : ClassId) (iv ov : Val)
    (hv : typeName mv cv = t) (he : typeName me ce = t)
    (h1 : dictGet st.vertex_types t = none) (h2 : dictGet st.edge_types t = none) :
    ∃ st1 st2 : RegState,
      registerVertex st mv cv kv = .ok st1 ∧
      registerEdge st1 me ce ke = .ok st2 ∧
      dictGet st2.vertex_types t = some kv ∧
      dictGet st2.edge_types t = some ke ∧
      deserialize st2 [("_type", .vstr "vertex"), ("element_type", .vstr t)] =
        .ok (.vertexElem kv [("_type", .vstr "vertex"), ("element_type", .vstr t)]) ∧
      deserialize st2 [("_type", .vstr "edge"), ("_label", .vstr t), ("_inV", iv), ("_outV", ov)] =
        .ok (.edgeElem ke iv ov
          [("_type", .vstr "edge"), ("_label", .vstr t), ("_inV", iv), ("_outV", ov)]) := by
  refine ⟨{ st with vertex_types := st.vertex_types ++ [(t, kv)] },
          { st with vertex_types := st.vertex_types ++ [(t, kv)]
                    edge_types := st.edge_types ++ [(t, ke)] }, ?_, ?_, ?_, ?_, ?_, ?_⟩
  · simp [registerVertex, hv, h1]
  · simp [registerEdge, he, h2]
  · rw [dictGet_append_of_none _ h1]; simp [dictGet]
  · rw [dictGet_append_of_none _ h2]; simp [dictGet]
  · have hl : dictGet (st.vertex_types ++ [(t, kv)]) t = some kv := by
      rw [dictGet_append_of_none _ h1]; simp [dictGet]
    simp [deserialize, dictGet, lookupValKey, hl]
  · have hl : dictGet (st.edge_types ++ [(t, ke)]) t = some ke := by
      rw [dictGet_append_of_none _ h2]; simp [dictGet]
    simp [deserialize, dictGet, lookupValKey, hl]

theorem C10_vertex_edge_registries_disjoint_witness :
    ∃ st1 st2 : RegState,
      registerVertex { vertex_types := [], edge_types := [] } none "Follows" 0 = .ok st1 ∧
      registerEdge st1 none "Follows" 1 = .ok st2 ∧
      dictGet st2.vertex_types "follows" = some 0 ∧
      dictGet st2.edge_types "follows" = some 1 ∧
      deserialize st2 [("_type", .vstr "vertex"), ("element_type", .vstr "follows")] =
        .ok (.vertexElem 0 [("_type", .vstr "vertex"), ("element_type", .vstr "follows")]) ∧
      deserialize st2 [("_type", .vstr "edge"), ("_label", .vstr "follows"),
          ("_inV", .vnum 7), ("_outV", .vnum 8)] =
        .ok (.edgeElem 1 (.vnum 7) (.vnum 8)
          [("_type", .vstr "edge"), ("_label", .vstr "follows"),
           ("_inV", .vnum 7), ("_outV", .vnum 8)]) :=
  C10_vertex_edge_registries_disjoint { vertex_types := [], edge_types := [] }
    "follows" none none "Follows" "Follows" 0 1 (.vnum 7) (.vnum 8)
    (by decide) (by decide) (by decide) (by decide)

/-- Claim C8: `Element.deserialize` dispatches on the row's
discriminator. A row whose `_type` is neither `vertex` nor `edge`
raises the `TypeError`; a `vertex`/`edge` row whose type tag or label
is missing or not registered raises a `KeyError`; a recognized
discriminator yields an instance of exactly the registered class, so
no partially-typed or generic object is ever produced. -/
theorem C8_deserialize_registry_dispatch (st : RegState) (data : Row) :
    (dictGet data "_type" ≠ some (.vstr "vertex") →
     dictGet data "_type" ≠ some (.vstr "edge") →
      deserialize st data = .error (.typeError (dictGet data "_type"))) ∧
    (dictGet data "_type" = some (.vstr "vertex") →
      (dictGet data "element_type" = none →
        deserialize st data = .error (.keyError (.vstr "element_type"))) ∧
      (∀ vt, dictGet data "element_type" = some vt →
        lookupValKey st.vertex_types vt = none →
        deserialize st data = .error (.keyError vt)) ∧
      (∀ vt cls, dictGet data "element_type" = some vt →
        lookupValKey st.vertex_types vt = some cls →
        deserialize st data = .ok (.vertexElem cls data))) ∧
    (dictGet data "_type" = some (.vstr "edge") →
      (dictGet data "_label" = none →
        deserialize st data = .error (.keyError (.vstr "_label"))) ∧
      (∀ lb, dictGet data "_label" = some lb →
        lookupValKey st.edge_types lb = none →
        deserialize st data = .error (.keyError lb)) ∧
      (∀ lb cls iv ov, dictGet data "_label" = some lb →
        lookupValKey st.edge_types lb = some cls →
        dictGet data "_inV" = some iv → dictGet data "_outV" = some ov →
        deserialize st data = .ok (.edgeElem cls iv ov data))) := by
  refine ⟨fun h1 h2 => ?_, fun hv => ⟨fun he => ?_, fun vt hvt hl => ?_, fun vt cls hvt hl => ?_⟩,
          fun hd => ⟨fun he => ?_, fun lb hlb hl => ?_, fun lb cls iv ov hlb hl hiv hov => ?_⟩⟩
  · simp [deserialize, h1, h2]
  · simp [deserialize, hv, he]
  · simp [deserialize, hv, hvt, hl]
  · simp [deserialize, hv, hvt, hl]
  · have hne : dictGet data "_type" ≠ some (.vstr "vertex") := by simp [hd]
    simp [deserialize, hd, hne, he]
  · have hne : dictGet data "_type" ≠ some (.vstr "vertex") := by simp [hd]
    simp [deserialize, hd, hne, hlb, hl]
  · have hne : dictGet data "_type" ≠ some (.vstr "vertex") := by simp [hd]
    simp [deserialize, hd, hne, hlb, hl, hiv, hov]

theorem C8_deserialize_registry_dispatch_witness :
    deserialize ⟨[("person", 0)], [("knows", 1)]⟩ [("_type", .vstr "mystery")] =
      .error (.typeError (some (.vstr "mystery"))) ∧
    deserialize ⟨[("person", 0)], [("knows", 1)]⟩
      [("_type", .vstr "vertex"), ("element_type", .vstr "alien")] =
      .error (.keyError (.vstr "alien")) ∧
    deserialize ⟨[("person", 0)], [("knows", 1)]⟩
      [("_type", .vstr "vertex"), ("element_type", .vstr "person")] =
      .ok (.vertexElem 0 [("_type", .vstr "vertex"), ("element_type", .vstr "person")]) ∧
    deserialize ⟨[("person", 0)], [("knows", 1)]⟩
      [("_type", .vstr "edge"), ("_label", .vstr "knows"),
       ("_inV", .vnum 7), ("_outV", .vnum 8)] =
      .ok (.edgeElem 1 (.vnum 7) (.vnum 8)
        [("_type", .vstr "edge"), ("_label", .vstr "knows"),
         ("_inV", .vnum 7), ("_outV", .vnum 8)]) :=
  ⟨(C8_deserialize_registry_dispatch ⟨[("person", 0)], [("knows", 1)]⟩
      [("_type", .vstr "mystery")]).1 (by decide) (by decide),
   ((C8_deserialize_registry_dispatch ⟨[("person", 0)], [("knows", 1)]⟩
      [("_type", .vstr "vertex"), ("element_type", .vstr "alien")]).2.1 (by decide)).2.1
      (.vstr "alien") (by decide) (by decide),
   ((C8_deserialize_registry_dispatch ⟨[("person", 0)], [("knows", 1)]⟩
      [("_type", .vstr "vertex"), ("element_type", .vstr "person")]).2.1 (by decide)).2.2
      (.vstr "person") 0 (by decide) (by decide),
   ((C8_deserialize_registry_dispatch ⟨[("person", 0)], [("knows", 1)]⟩
      [("_type", .vstr "edge"), ("_label", .vstr "knows"),
       ("_inV", .vnum 7), ("_outV", .vnum 8)]).2.2 (by decide)).2.2
      (.vstr "knows") 1 (.vnum 7) (.vnum 8) (by decide) (by decide) (by decide) (by decide)⟩

theorem pyTruthyFilter_length_eq {rs : List (Option Row)}
    (h : ∀ r ∈ rs, ∃ row, r = some row ∧ row ≠ []) :
    (pyTruthyFilter rs).length = rs.length := by
  induction rs with
  | nil => simp [pyTruthyFilter]
  | cons r rest ih =>
    obtain ⟨row, rfl, hne⟩ := h r (by simp)
    have hrest := ih (fun r hr => h r (by simp [hr]))
    have hpos : (fun r : Row => !r.isEmpty) row = true := by
      cases row with
      | nil => exact absurd rfl hne
      | cons a l => rfl
    have h1 : pyTruthyFilter (some row :: rest) = row :: pyTruthyFilter rest := by
      unfold pyTruthyFilter
      simp only [List.filterMap_cons, id]
      simp [List.filter_cons, hpos]
    rw [h1]
    simp [hrest]

theorem mem_pyTruthyFilter {rs : List (Option Row)} {row : Row}
    (h : row ∈ pyTruthyFilter rs) : some row ∈ rs := by
  simp only [pyTruthyFilter, List.mem_filter, List.mem_filterMap, id] at h
  obtain ⟨⟨a, ha, rfl⟩, -⟩ := h
  exact ha

theorem deserializeRows_all_ok {st : RegState} {rows : List Row}
    (h : ∀ row ∈ rows, ∃ e, deserialize st row = .ok e) :
    ∃ es, deserializeRows st rows = .ok es ∧ es.length = rows.length := by
  induction rows with
  | nil => exact ⟨[], rfl, rfl⟩
  | cons r rest ih =>
    obtain ⟨e, he⟩ := h r (by simp)
    obtain ⟨es, hes, hlen⟩ := ih (fun row hr => h row (by simp [hr]))
    exact ⟨e :: es, by simp [deserializeRows, he, hes], by simp [hlen]⟩

theorem deserializeRows_ok_length {st : RegState} : ∀ {rows : List Row} {es : List ElemInst},
    deserializeRows st rows = .ok es → es.length = rows.length := by
  intro rows
  induction rows with
  | nil => intro es h; simp only [deserializeRows] at h; injection h with h; simp [← h]
  | cons r rest ih =>
    intro es h
    simp only [deserializeRows] at h
    rcases hd : deserialize st r with err | e <;> rw [hd] at h
    · rcases err with k | d <;> simp at h
    · rcases hrest : deserializeRows st rest with err2 | es2 <;> rw [hrest] at h
      · exact absurd h (by simp)
      · injection h with h
        simp [← h, ih hrest]

/-- Claim C4: the batched fetch checks its result count. If the
boundary returns truthy rows for fewer identifiers than requested,
`Vertex.all` raises the `ThunderdomeQueryError` rather than returning
a short list; when every requested identifier resolves to a non-null,
deserializable row, it returns one deserialized element per requested
identifier. -/
theorem C4_batched_fetch_count_check (st : RegState) (vids : List Val)
    (response : List (Option Row)) :
    ((pyTruthyFilter response).length < vids.length →
      vertexAll st vids response = .error (.queryError countMismatchMsg)) ∧
    (response.length = vids.length →
      (∀ r ∈ response, ∃ row, r = some row ∧ row ≠ [] ∧ ∃ e, deserialize st row = .ok e) →
      ∃ es, vertexAll st vids response = .ok es ∧ es.length = vids.length) := by
  constructor
  · intro h
    have hne : (pyTruthyFilter response).length ≠ vids.length := Nat.ne_of_lt h
    simp [vertexAll, hne]
  · intro hlen hall
    have hshape : ∀ r ∈ response, ∃ row, r = some row ∧ row ≠ [] := by
      intro r hr
      obtain ⟨row, hrow, hne, -⟩ := hall r hr
      exact ⟨row, hrow, hne⟩
    have hflen : (pyTruthyFilter response).length = vids.length :=
      (pyTruthyFilter_length_eq hshape).trans hlen
    have hdes : ∀ row ∈ pyTruthyFilter response, ∃ e, deserialize st row = .ok e := by
      intro row hrow
      obtain ⟨row', hrow', -, he⟩ := hall (some row) (mem_pyTruthyFilter hrow)
      obtain rfl : row = row' := Option.some.inj hrow'
      exact he
    obtain ⟨es, hes, helen⟩ := deserializeRows_all_ok hdes
    refine ⟨es, ?_, helen.trans hflen⟩
    simp [vertexAll, hflen, hes]

theorem C4_batched_fetch_count_check_witness :
    (vertexAll ⟨[("person", 0)], []⟩ [.vstr "x", .vstr "y"]
      [some [("_type", .vstr "vertex"), ("element_type", .vstr "person")], none] =
      .error (.queryError countMismatchMsg)) ∧
    (∃ es, vertexAll ⟨[("person", 0)], []⟩ [.vstr "x", .vstr "y"]
      [some [("_type", .vstr "vertex"), ("element_type", .vstr "person")],
       some [("_type", .vstr "vertex"), ("element_type", .vstr "person")]] = .ok es ∧
      es.length = 2) :=
  ⟨(C4_batched_fetch_count_check ⟨[("person", 0)], []⟩ [.vstr "x", .vstr "y"]
      [some [("_type", .vstr "vertex"), ("element_type", .vstr "person")], none]).1
      (by decide),
   (C4_batched_fetch_count_check ⟨[("person", 0)], []⟩ [.vstr "x", .vstr "y"]
      [some [("_type", .vstr "vertex"), ("element_type", .vstr "person")],
       some [("_type", .vstr "vertex"), ("element_type", .vstr "person")]]).2
      (by decide)
      (by
        intro r hr
        simp only [List.mem_cons, List.not_mem_nil, or_false] at hr
        rcases hr with rfl | rfl <;>
          exact ⟨[("_type", .vstr "vertex"), ("element_type", .vstr "person")], rfl, by decide,
            ⟨.vertexElem 0 [("_type", .vstr "vertex"), ("element_type", .vstr "person")],
              by decide⟩⟩)⟩

theorem vertexAll_ok_length {st : RegState} {vids : List Val}
    {response : List (Option Row)} {es : List ElemInst}
    (h : vertexAll st vids response = .ok es) : es.length = vids.length := by
  by_cases hc : (pyTruthyFilter response).length ≠ vids.length
  · simp [vertexAll, hc] at h
  · rw [vertexAll, if_neg hc] at h
    have := deserializeRows_ok_length h
    omega

/-- Claim C3 counterexample: with one registered vertex class and a
boundary response of two valid rows for the single requested vid,
`Vertex.get` raises `DoesNotExist` — not `MultipleObjectsReturned` as
the claim states — because `Vertex.all` raises its count-mismatch
`ThunderdomeQueryError` first and `get` converts that to
`DoesNotExist`. -/
theorem C3_more_than_one_result_counterexample :
    vertexGet ⟨[("person", 0)], []⟩ (.vstr "a")
      [some [("_type", .vstr "vertex"), ("element_type", .vstr "person")],
       some [("_type", .vstr "vertex"), ("element_type", .vstr "person")]] =
      .error .doesNotExist ∧
    vertexGet ⟨[("person", 0)], []⟩ (.vstr "a")
      [some [("_type", .vstr "vertex"), ("element_type", .vstr "person")],
       some [("_type", .vstr "vertex"), ("element_type", .vstr "person")]] ≠
      .error .multipleObjectsReturned := by
  constructor
  · decide
  · decide

/-- Claim C3 (amended): `Vertex.get` delegates to the batched fetch
with the one-element vid list; whenever the number of truthy boundary
results differs from one — zero results as the claim states, but also
more than one — it raises `DoesNotExist` (the batched fetch raises the
count-mismatch `ThunderdomeQueryError`, which `get` converts), so it
never returns an arbitrary match; the `MultipleObjectsReturned` branch
is unreachable for every boundary response. -/
theorem C3_get_nonunity_raises_doesNotExist (st : RegState) (vid : Val)
    (response : List (Option Row)) :
    ((pyTruthyFilter response).length ≠ 1 →
      vertexGet st vid response = .error .doesNotExist) ∧
    vertexGet st vid response ≠ .error .multipleObjectsReturned := by
  constructor
  · intro h
    have hcond : (pyTruthyFilter response).length ≠ ([vid] : List Val).length := by
      simpa using h
    have hall : vertexAll st [vid] response = .error (.queryError countMismatchMsg) := by
      rw [vertexAll, if_pos hcond]
    simp [vertexGet, hall]
  · rcases hall : vertexAll st [vid] response with err | results
    · rcases err with msg | _ | d <;> simp [vertexGet, hall]
    · have hlen := vertexAll_ok_length hall
      simp only [List.length_singleton] at hlen
      rcases results with _ | ⟨r, rest⟩
      · simp at hlen
      · have hrest : rest = [] := by simpa using hlen
        subst hrest
        simp [vertexGet, hall]

theorem C3_get_nonunity_raises_doesNotExist_witness :
    (pyTruthyFilter ([] : List (Option Row))).length ≠ 1 ∧
    vertexGet ⟨[("person", 0)], []⟩ (.vstr "a") [] = .error .doesNotExist :=
  ⟨by decide,
   (C3_get_nonunity_raises_doesNotExist ⟨[("person", 0)], []⟩ (.vstr "a") []).1 (by decide)⟩

theorem dictGet_map_replace_self {β : Type} {d : List (String × β)} {k : String} (v : β)
    (h : (dictGet d k).isSome) :
    dictGet (d.map (fun p => if p.1 = k then (k, v) else p)) k = some v := by
  induction d with
  | nil => simp [dictGet] at h
  | cons p rest ih =>
    by_cases hk : p.1 = k
    · simp [dictGet, hk]
    · rw [dictGet, if_neg hk] at h
      simp only [List.map_cons, if_neg hk]
      rw [dictGet, if_neg hk]
      exact ih h

theorem dictGet_map_replace_ne {β : Type} {d : List (String × β)} {k : String} {v : β}
    {q : String} (h : q ≠ k) :
    dictGet (d.map (fun p => if p.1 = k then (k, v) else p)) q = dictGet d q := by
  induction d with
  | nil => simp [dictGet]
  | cons p rest ih =>
    by_cases hk : p.1 = k
    · simp only [List.map_cons, if_pos hk]
      rw [dictGet, dictGet, hk]
      have hne : ¬ (k = q) := fun hc => h hc.symm
      rw [if_neg hne, if_neg hne]
      exact ih
    · simp only [List.map_cons, if_neg hk]
      rw [dictGet, dictGet]
      by_cases hq : p.1 = q
      · rw [if_pos hq, if_pos hq]
      · rw [if_neg hq, if_neg hq]
        exact ih

theorem dictGet_dictSet_self {β : Type} (d : List (String × β)) (k : String) (v : β) :
    dictGet (dictSet d k v) k = some v := by
  unfold dictSet
  by_cases h : (dictGet d k).isSome
  · rw [if_pos h]
    exact dictGet_map_replace_self v h
  · rw [if_neg h]
    have hn : dictGet d k = none := Option.not_isSome_iff_eq_none.mp h
    rw [dictGet_append_of_none _ hn]
    simp [dictGet]

theorem dictGet_dictSet_ne {β : Type} (d : List (String × β)) (k : String) (v : β)
    (q : String) (h : q ≠ k) :
    dictGet (dictSet d k v) q = dictGet d q := by
  unfold dictSet
  by_cases hs : (dictGet d k).isSome
  · rw [if_pos hs]
    exact dictGet_map_replace_ne h
  · rw [if_neg hs]
    rcases hd : dictGet d q with _ | c
    · rw [dictGet_append_of_none _ hd]
      simp only [dictGet]
      rw [if_neg (fun hc : k = q => h hc.symm)]
    · rw [dictGet_append_of_some _ hd]

theorem foldl_append_singleton {α β : Type} (f : α → β) (l : List α) :
    ∀ init : List β,
    l.foldl (fun acc c => acc ++ [f c]) init = init ++ l.map f := by
  induction l with
  | nil => intro init; simp
  | cons c rest ih => intro init; simp [ih, List.append_assoc]

theorem dictGet_foldl_dictSet_ne {β γ : Type} (key : γ → String) (val : γ → β)
    (cols : List γ) :
    ∀ (init : List (String × β)) (k : String), (∀ c ∈ cols, key c ≠ k) →
    dictGet (cols.foldl (fun ps c => dictSet ps (key c) (val c)) init) k = dictGet init k := by
  induction cols with
  | nil => intro init k _; rfl
  | cons c rest ih =>
    intro init k h
    simp only [List.foldl_cons]
    rw [ih _ _ (fun c' hc' => h c' (by simp [hc']))]
    exact dictGet_dictSet_ne _ _ _ _ (h c (by simp)).symm

theorem append_val_ne_endpoint_key (s : String) :
    s ++ "_val" ≠ "v1eid" ∧ s ++ "_val" ≠ "v2eid" := by
  have step : ∀ t : String, t.data = ['v', '1', 'e', 'i', 'd'] ∨
      t.data = ['v', '2', 'e', 'i', 'd'] → s ++ "_val" ≠ t := by
    intro t ht h
    have hd : s.data ++ "_val".data = t.data := by
      have := congrArg String.data h
      rwa [String.data_append] at this
    have hval : "_val".data = ['_', 'v', 'a', 'l'] := rfl
    rw [hval] at hd
    rcases ht with ht | ht <;> rw [ht] at hd <;>
    · have hlen5 := congrArg List.length hd
      simp only [List.length_append, List.length_cons, List.length_nil] at hlen5
      have hl : s.data.length = 1 := by omega
      obtain ⟨c, hc⟩ := List.length_eq_one.mp hl
      rw [hc] at hd
      simp only [List.cons_append, List.nil_append] at hd
      injection hd with h1 hd2
      injection hd2 with h2 hd3
      exact absurd h2 (by decide)
  exact ⟨step "v1eid" (Or.inl rfl), step "v2eid" (Or.inr rfl)⟩

/-- Claim C9: saving a new edge (no identifier) requires both endpoint
references to be present before the creation script is built. A
missing endpoint raises a `ValidationError` with nothing submitted to
the boundary; with both endpoints present (and the field validators
passing), the built script addresses both endpoint identifiers: the
`v1 = g.v(v1eid)` / `v2 = g.v(v2eid)` lines are in the script and the
parameter map binds `v1eid` and `v2eid` to the endpoints'
identifiers. -/
theorem C9_edge_save_endpoint_validation (e : EdgeInst) (h : e.eid = none) :
    ((e.inV = none ∨ e.outV = none) →
      ∃ msg, edgeSave e = (.error (.validationError msg), [])) ∧
    (e.inV ≠ none → e.outV ≠ none → e.columnsValid = true →
      edgeSave e = (.ok (), [edgeSaveSubmission e]) ∧
      "v1 = g.v(v1eid)" ∈ edgeSaveScriptLines e ∧
      "v2 = g.v(v2eid)" ∈ edgeSaveScriptLines e ∧
      dictGet (edgeSaveSubmission e).params "v1eid" = some (refEid e.inV) ∧
      dictGet (edgeSaveSubmission e).params "v2eid" = some (refEid e.outV)) := by
  constructor
  · rintro (hin | hout)
    · refine ⟨"in vertex must be set before saving new edges", ?_⟩
      have hval : edgeValidate e =
          .error (.validationError "in vertex must be set before saving new edges") := by
        simp [edgeValidate, h, hin]
      simp [edgeSave, hval]
    · by_cases hin : e.inV = none
      · refine ⟨"in vertex must be set before saving new edges", ?_⟩
        have hval : edgeValidate e =
            .error (.validationError "in vertex must be set before saving new edges") := by
          simp [edgeValidate, h, hin]
        simp [edgeSave, hval]
      · refine ⟨"out vertex must be set before saving new edges", ?_⟩
        have hval : edgeValidate e =
            .error (.validationError "out vertex must be set before saving new edges") := by
          simp [edgeValidate, h, hin, hout]
        simp [edgeSave, hval]
  · intro hin hout hcv
    have hval : edgeValidate e = .ok () := by
      simp [edgeValidate, h, hin, hout, hcv]
    have hhead : edgeSaveHeadLines e =
        ["v1 = g.v(v1eid)", "v2 = g.v(v2eid)", "e = g.addEdge(v1, v2, label)"] := by
      rw [edgeSaveHeadLines, h]
    have hlines : "v1 = g.v(v1eid)" ∈ edgeSaveScriptLines e ∧
        "v2 = g.v(v2eid)" ∈ edgeSaveScriptLines e := by
      rw [edgeSaveScriptLines, foldl_append_singleton, hhead]
      constructor <;> simp
    have hheadp : edgeSaveHeadParams e =
        dictSet (dictSet [("label", .vstr (edgeLabel e))] "v1eid" (refEid e.inV))
          "v2eid" (refEid e.outV) := by
      rw [edgeSaveHeadParams, h]
    have hfold1 : dictGet (edgeSaveParams e) "v1eid" =
        dictGet (edgeSaveHeadParams e) "v1eid" := by
      rw [edgeSaveParams]
      exact dictGet_foldl_dictSet_ne (fun c => c.1 ++ "_val")
        (fun c => (dictGet e.values c.1).getD .vnull) e.columns _ _
        (fun c _ => (append_val_ne_endpoint_key c.1).1)
    have hfold2 : dictGet (edgeSaveParams e) "v2eid" =
        dictGet (edgeSaveHeadParams e) "v2eid" := by
      rw [edgeSaveParams]
      exact dictGet_foldl_dictSet_ne (fun c => c.1 ++ "_val")
        (fun c => (dictGet e.values c.1).getD .vnull) e.columns _ _
        (fun c _ => (append_val_ne_endpoint_key c.1).2)
    refine ⟨by simp [edgeSave, hval], hlines.1, hlines.2, ?_, ?_⟩
    · show dictGet (edgeSaveParams e) "v1eid" = some (refEid e.inV)
      rw [hfold1, hheadp,
        dictGet_dictSet_ne _ _ _ _ (by decide), dictGet_dictSet_self]
    · show dictGet (edgeSaveParams e) "v2eid" = some (refEid e.outV)
      rw [hfold2, hheadp, dictGet_dictSet_self]

theorem C9_edge_save_endpoint_validation_witness :
    (∃ msg, edgeSave ⟨none, none, some ⟨some (.vnum 4)⟩, none, "MyEdge", [], [], true⟩ =
      (.error (.validationError msg), [])) ∧
    (edgeSave ⟨none, some ⟨some (.vnum 3)⟩, some ⟨some (.vnum 4)⟩, none, "MyEdge",
        [("numbers", "numbers")], [("numbers", .vnum 5)], true⟩ =
      (.ok (), [edgeSaveSubmission ⟨none, some ⟨some (.vnum 3)⟩, some ⟨some (.vnum 4)⟩,
        none, "MyEdge", [("numbers", "numbers")], [("numbers", .vnum 5)], true⟩]) ∧
      dictGet (edgeSaveSubmission ⟨none, some ⟨some (.vnum 3)⟩, some ⟨some (.vnum 4)⟩,
        none, "MyEdge", [("numbers", "numbers")], [("numbers", .vnum 5)], true⟩).params
        "v1eid" = some (.vnum 3)) :=
  ⟨(C9_edge_save_endpoint_validation
      ⟨none, none, some ⟨some (.vnum 4)⟩, none, "MyEdge", [], [], true⟩ rfl).1
      (Or.inl rfl),
   let hsave := (C9_edge_save_endpoint_validation
      ⟨none, some ⟨some (.vnum 3)⟩, some ⟨some (.vnum 4)⟩, none, "MyEdge",
       [("numbers", "numbers")], [("numbers", .vnum 5)], true⟩ rfl).2
      (by decide) (by decide) rfl
   ⟨hsave.1, hsave.2.2.2.1⟩⟩

theorem parseVarName_name_pos {cs rest : List Char} {n : String}
    (h : parseVarName cs = some (n, rest)) : 0 < n.length := by
  unfold parseVarName at h
  rcases hs : skipWs cs with _ | ⟨c, tail⟩ <;> rw [hs] at h
  · exact absurd h (by simp)
  · dsimp only at h
    by_cases hc : c.isAlphanum
    · rw [if_pos hc] at h
      have hn : n = String.mk (c :: tail.takeWhile isWordChar) := by
        injection h with h1
        injection h1 with h2 h3
        exact h2.symm
      rw [hn]
      simp [String.length]
    · rw [if_neg hc] at h
      exact absurd h (by simp)

theorem parseArgsLoop_acc_le {fuel : Nat} : ∀ {cs : List Char} {acc args : List String}
    {rest : List Char}, parseArgsLoop fuel cs acc = some (args, rest) →
    acc.length ≤ args.length := by
  induction fuel with
  | zero => intro cs acc args rest h; exact absurd h (by simp [parseArgsLoop])
  | succ fuel ih =>
    intro cs acc args rest h
    rw [parseArgsLoop] at h
    rcases hs : skipWs cs with _ | ⟨c, tail⟩ <;> rw [hs] at h
    · simp only [Option.some.injEq, Prod.mk.injEq] at h
      obtain ⟨rfl, -⟩ := h
      exact Nat.le_refl _
    · dsimp only at h
      by_cases hc : c = ','
      · rw [if_pos hc] at h
        rcases hv : parseVarName tail with _ | ⟨nm, rest2⟩ <;> rw [hv] at h
        · exact absurd h (by simp)
        · have := ih h
          have hle : acc.length ≤ (acc ++ [nm]).length := by simp
          omega
      · rw [if_neg hc] at h
        simp only [Option.some.injEq, Prod.mk.injEq] at h
        obtain ⟨rfl, -⟩ := h
        exact Nat.le_refl _

theorem parseFuncDefn_wellformed {data : List Char} {n : String} {args : List String}
    (h : parseFuncDefn data = some (n, args)) : 0 < n.length ∧ 0 < args.length := by
  simp only [parseFuncDefn, bind, Option.bind_eq_some, pure, Option.some.injEq] at h
  obtain ⟨cs1, h1, ⟨nm, cs2⟩, h2, cs3, h3, ⟨a, cs4⟩, h4, ⟨as, cs5⟩, h5, cs6, h6, cs7, h7,
    heq⟩ := h
  simp only [Prod.mk.injEq] at heq
  obtain ⟨rfl, rfl⟩ := heq
  refine ⟨parseVarName_name_pos h2, ?_⟩
  have := parseArgsLoop_acc_le h5
  simp at this
  omega

/-- Claim C6 counterexample: the captured block `def foo() \x7b ... \x7d`
fails the grammar re-parse (the parameter list grammar requires at
least one name), yet the scan result for a file holding exactly that
block is the one-element list holding the empty placeholder — the
malformed block is not excluded from the produced sequence, so not
every entry is a well-formed parsed signature. -/
theorem C6_malformed_block_not_excluded_counterexample :
    groovyParse "def foo() \x7b\n\x7d" = [none] ∧
    ¬ (∀ g ∈ groovyParse "def foo() \x7b\n\x7d", g.isSome) := by
  constructor
  · decide
  · decide

/-- Claim C6 (amended): scanning an embedded-script file is non-fatal
with respect to malformed captured blocks, but a failing block is not
excluded: the produced sequence has exactly one entry per captured
block, the entry for each block is the outcome of its grammar
re-parse — the parsed signature on success, the empty placeholder on
failure — and every successful entry is a well-formed signature
carrying a non-empty name, a non-empty ordered parameter list and the
full definition text. -/
theorem C6_scan_nonfatal_placeholder_entries (data : String) (i : Nat) :
    (groovyParse data).length = (capturedBlocks data).length ∧
    (groovyParse data).get? i = ((capturedBlocks data).get? i).map GroovyFunctionParser.parse ∧
    (∀ block g, GroovyFunctionParser.parse block = some g →
      g.defn = String.mk block ∧ 0 < g.name.length ∧ 0 < g.args.length) := by
  refine ⟨by simp [groovyParse], by simp [groovyParse], ?_⟩
  intro block g hg
  unfold GroovyFunctionParser.parse at hg
  rcases hp : parseFuncDefn block with _ | ⟨nm, args⟩ <;> rw [hp] at hg
  · exact absurd hg (by simp)
  · obtain rfl : GroovyFunction.mk nm args
        (String.mk (stripTrailingBrace (stripDefnHead [] block))) (String.mk block) = g := by
      injection hg
    have := parseFuncDefn_wellformed hp
    exact ⟨rfl, this.1, this.2⟩

theorem C6_scan_nonfatal_placeholder_entries_witness :
    (groovyParse "def greet(a) \x7b\nbody\n\x7d\ndef bad() \x7b\n\x7d").length =
      (capturedBlocks "def greet(a) \x7b\nbody\n\x7d\ndef bad() \x7b\n\x7d").length ∧
    (GroovyFunction.mk "greet" ["a"] "\nbody\n\n" "def greet(a) \x7b\nbody\n\x7d\n").defn =
      String.mk "def greet(a) \x7b\nbody\n\x7d\n".toList ∧
    0 < (GroovyFunction.mk "greet" ["a"] "\nbody\n\n"
      "def greet(a) \x7b\nbody\n\x7d\n").name.length ∧
    0 < (GroovyFunction.mk "greet" ["a"] "\nbody\n\n"
      "def greet(a) \x7b\nbody\n\x7d\n").args.length :=
  ⟨(C6_scan_nonfatal_placeholder_entries
      "def greet(a) \x7b\nbody\n\x7d\ndef bad() \x7b\n\x7d" 0).1,
   (C6_scan_nonfatal_placeholder_entries
      "def greet(a) \x7b\nbody\n\x7d\ndef bad() \x7b\n\x7d" 0).2.2
      "def greet(a) \x7b\nbody\n\x7d\n".toList
      (GroovyFunction.mk "greet" ["a"] "\nbody\n\n" "def greet(a) \x7b\nbody\n\x7d\n")
      (by decide)⟩

theorem posParams_cons (a : String) (arglist : List String) (params : List (String × Val))
    (v : Val) (rest : List Val) :
    posParams (a :: arglist) params (v :: rest) =
      posParams arglist (dictSet params a v) rest := by
  simp [posParams, List.zip]

theorem assignPositional_eq {vals : List Val} : ∀ {arglist : List String}
    {params : List (String × Val)}, vals.length ≤ arglist.length →
    assignPositional arglist params vals =
      .ok (posParams arglist params vals, arglist.drop vals.length) := by
  induction vals with
  | nil => intro arglist params _; simp [assignPositional, posParams]
  | cons v rest ih =>
    intro arglist params h
    rcases arglist with _ | ⟨a, arglist'⟩
    · simp at h
    · simp only [assignPositional]
      rw [ih (by simpa using h), posParams_cons]
      simp

theorem posParams_lookup_unassigned {vals : List Val} : ∀ {arglist : List String}
    {params : List (String × Val)} {k : String},
    k ∉ arglist.take vals.length →
    dictGet (posParams arglist params vals) k = dictGet params k := by
  induction vals with
  | nil => intro arglist params k _; simp [posParams]
  | cons v rest ih =>
    intro arglist params k h
    rcases arglist with _ | ⟨a, arglist'⟩
    · simp [posParams]
    · simp only [List.length_cons, List.take_succ_cons, List.mem_cons] at h
      push_neg at h
      rw [posParams_cons, ih h.2, dictGet_dictSet_ne _ _ _ _ h.1]

theorem posParams_lookup_assigned {vals : List Val} : ∀ {arglist : List String}
    {params : List (String × Val)}, arglist.Nodup →
    ∀ (j : Nat) (hj : j < vals.length) (hja : j < arglist.length),
    dictGet (posParams arglist params vals) (arglist.get ⟨j, hja⟩) =
      some (vals.get ⟨j, hj⟩) := by
  induction vals with
  | nil => intro _ _ _ j hj _; exact absurd hj (by simp)
  | cons v rest ih =>
    intro arglist params hnd j hj hja
    rcases arglist with _ | ⟨a, arglist'⟩
    · simp at hja
    · rw [posParams_cons]
      rcases j with _ | j
      · have hna : a ∉ arglist'.take rest.length := fun hmem =>
          (List.nodup_cons.mp hnd).1 (List.mem_of_mem_take hmem)
        rw [show (a :: arglist').get ⟨0, hja⟩ = a from rfl,
          posParams_lookup_unassigned hna, dictGet_dictSet_self]
        rfl
      · have := @ih arglist' (dictSet params a v) (List.nodup_cons.mp hnd).2 j
          (by simpa using hj) (by simpa using hja)
        simpa using this

/-- Claim C7 counterexample: a bound method whose declared default
arguments contain a key outside the parsed parameter list. Invoking it
with that key as a named argument is an invocation with a named
argument not in P, yet the call raises the duplicate-argument
(`multiple values`) `TypeError`, not the naming
(`unexpected keyword`) one the claim requires. -/
theorem C7_default_key_naming_counterexample :
    gremlinCall ⟨true, "greet", ["name", "times"], [("bogus", .vnum 1)], "B"⟩ .vnull []
      [("bogus", .vnum 2)] = .error (.multipleValues "greet" "bogus") ∧
    ("bogus" ∉ (⟨true, "greet", ["name", "times"], [("bogus", .vnum 1)], "B"⟩ :
      GremlinMethodRec).arg_list) ∧
    gremlinCall ⟨true, "greet", ["name", "times"], [("bogus", .vnum 1)], "B"⟩ .vnull []
      [("bogus", .vnum 2)] ≠ .error (.unexpectedKeyword "greet" "bogus") := by
  refine ⟨by decide, by decide, by decide⟩

/-- Claim C7 (amended): for a bound embedded-script callable with
parsed parameter list P, over the effective positional arguments (the
implicit leading instance identifier included for non-static
bindings): more combined positional and named arguments than `|P|`
raise the arity `TypeError`; a named argument neither in P nor among
the declared default keys raises the naming error; a parameter
supplied both positionally and by name raises the duplicate-argument
error (a named argument that is a declared-default key outside P also
raises the duplicate-argument error, per the counterexample);
otherwise the positional arguments merged over the declared defaults
are forwarded as the parameter map together with the function body. -/
theorem C7_gremlin_call_argument_checks (m : GremlinMethodRec) (instEid : Val)
    (args : List Val) :
    (∀ kwargs : List (String × Val),
      (effectiveArgs m instEid args).length + kwargs.length > m.arg_list.length →
      gremlinCall m instEid args kwargs =
        .error (.arityError m.attr_name m.arg_list.length
          (effectiveArgs m instEid args).length)) ∧
    (∀ k v, (effectiveArgs m instEid args).length + 1 ≤ m.arg_list.length →
      k ∉ m.arg_list → dictGet m.default_args k = none →
      gremlinCall m instEid args [(k, v)] = .error (.unexpectedKeyword m.attr_name k)) ∧
    (∀ k v, (effectiveArgs m instEid args).length + 1 ≤ m.arg_list.length →
      m.arg_list.Nodup →
      k ∈ m.arg_list.take (effectiveArgs m instEid args).length →
      gremlinCall m instEid args [(k, v)] = .error (.multipleValues m.attr_name k)) ∧
    ((effectiveArgs m instEid args).length ≤ m.arg_list.length → m.arg_list.Nodup →
      gremlinCall m instEid args [] =
        .ok (m.function_body,
          posParams m.arg_list m.default_args (effectiveArgs m instEid args)) ∧
      (∀ (j : Nat) (hj : j < (effectiveArgs m instEid args).length)
         (hja : j < m.arg_list.length),
        dictGet (posParams m.arg_list m.default_args (effectiveArgs m instEid args))
          (m.arg_list.get ⟨j, hja⟩) =
          some ((effectiveArgs m instEid args).get ⟨j, hj⟩)) ∧
      (∀ q, q ∉ m.arg_list.take (effectiveArgs m instEid args).length →
        dictGet (posParams m.arg_list m.default_args (effectiveArgs m instEid args)) q =
          dictGet m.default_args q)) := by
  refine ⟨fun kwargs h => ?_, fun k v hle hkP hkD => ?_, fun k v hle hnd hkT => ?_,
    fun hle hnd => ⟨?_, fun j hj hja => ?_, fun q hq => ?_⟩⟩
  · rw [gremlinCall, if_pos h]
  · have hcond : ¬ ((effectiveArgs m instEid args).length +
        ([(k, v)] : List (String × Val)).length > m.arg_list.length) := by
      simp only [List.length_singleton]
      omega
    rw [gremlinCall, if_neg hcond, assignPositional_eq (by omega)]
    have hkd : k ∉ m.arg_list.drop (effectiveArgs m instEid args).length :=
      fun hm => hkP (List.drop_subset _ _ hm)
    have hget : dictGet (posParams m.arg_list m.default_args
        (effectiveArgs m instEid args)) k = none := by
      rw [posParams_lookup_unassigned (fun hm => hkP (List.take_subset _ _ hm))]
      exact hkD
    simp [kwargLoop, hkd, hget]
  · have hcond : ¬ ((effectiveArgs m instEid args).length +
        ([(k, v)] : List (String × Val)).length > m.arg_list.length) := by
      simp only [List.length_singleton]
      omega
    rw [gremlinCall, if_neg hcond, assignPositional_eq (by omega)]
    obtain ⟨j, hjt, hjk⟩ := List.getElem_of_mem hkT
    have hjlen : j < (effectiveArgs m instEid args).length := by
      have := hjt
      simp [List.length_take] at this
      omega
    have hja : j < m.arg_list.length := by omega
    have hjk' : m.arg_list.get ⟨j, hja⟩ = k := by
      rw [← hjk]
      simp [List.getElem_take]
    have hget : dictGet (posParams m.arg_list m.default_args
        (effectiveArgs m instEid args)) k = some ((effectiveArgs m instEid args).get
          ⟨j, hjlen⟩) := by
      rw [← hjk']
      exact posParams_lookup_assigned hnd j hjlen hja
    have hkd : k ∉ m.arg_list.drop (effectiveArgs m instEid args).length := by
      intro hm
      have hsplit := List.take_append_drop (effectiveArgs m instEid args).length m.arg_list
      have hd := (List.nodup_append.mp (hsplit ▸ hnd)).2.2
      exact hd hkT hm
    simp [kwargLoop, hkd, hget]
  · rw [gremlinCall, if_neg (by simp; omega), assignPositional_eq hle]
    simp [kwargLoop]
  · exact posParams_lookup_assigned hnd j hj hja
  · exact posParams_lookup_unassigned hq

theorem C7_gremlin_call_argument_checks_witness :
    gremlinCall ⟨false, "greet", ["eid", "name", "times"], [], "B"⟩ (.vnum 9)
      [.vstr "a", .vstr "b", .vstr "c"] [] = .error (.arityError "greet" 3 4) ∧
    gremlinCall ⟨false, "greet", ["eid", "name", "times"], [], "B"⟩ (.vnum 9)
      [.vstr "bob"] [("zzz", .vnum 1)] = .error (.unexpectedKeyword "greet" "zzz") ∧
    gremlinCall ⟨false, "greet", ["eid", "name", "times"], [], "B"⟩ (.vnum 9)
      [.vstr "bob"] [("name", .vstr "al")] = .error (.multipleValues "greet" "name") ∧
    gremlinCall ⟨false, "greet", ["eid", "name", "times"], [], "B"⟩ (.vnum 9)
      [.vstr "bob"] [] =
      .ok ("B", posParams ["eid", "name", "times"] []
        (effectiveArgs ⟨false, "greet", ["eid", "name", "times"], [], "B"⟩ (.vnum 9)
          [.vstr "bob"])) :=
  ⟨(C7_gremlin_call_argument_checks ⟨false, "greet", ["eid", "name", "times"], [], "B"⟩
      (.vnum 9) [.vstr "a", .vstr "b", .vstr "c"]).1 [] (by decide),
   (C7_gremlin_call_argument_checks ⟨false, "greet", ["eid", "name", "times"], [], "B"⟩
      (.vnum 9) [.vstr "bob"]).2.1 "zzz" (.vnum 1) (by decide) (by decide) (by decide),
   (C7_gremlin_call_argument_checks ⟨false, "greet", ["eid", "name", "times"], [], "B"⟩
      (.vnum 9) [.vstr "bob"]).2.2.1 "name" (.vstr "al") (by decide) (by decide) (by decide),
   ((C7_gremlin_call_argument_checks ⟨false, "greet", ["eid", "name", "times"], [], "B"⟩
      (.vnum 9) [.vstr "bob"]).2.2.2 (by decide) (by decide)).1⟩

end Thunderdome
